import Mathlib

/-
Verification development for the openproject-toggl-import pipeline.

The Rust program (src/main.rs, src/openproject.rs, src/toggl.rs) fetches
Toggl time entries, filters them, extracts an OpenProject work-package id
from each description via the regex `(?i)^\[OP#(\d+)\](?: +(.*))*`, groups
entries by work-package id, fetches already-uploaded Toggl ids from
OpenProject per work package, filters out duplicates, builds submission
payloads, asks for confirmation and submits them sequentially.

This file shallowly embeds that pipeline: machine integers become Nat/Int
(no arithmetic near overflow is performed anywhere in the pipeline),
chrono timestamps become an instant (seconds since the Unix epoch) plus a
fixed offset, fallible I/O becomes Except/Option parameters, and the
interactive confirmation becomes a Bool-valued parameter.
-/

/-- The fixed literal `COMMENT_SEPARATOR = " - "` from main.rs / openproject.rs. -/
def commentSeparator : String := " - "

/-- Decimal digit character: models how one digit is rendered by Rust's
integer `Display` implementation. -/
def decDigitChar (n : Nat) : Char := Char.ofNat (48 + n)

/-- Fuel-based decimal rendering of a natural number, most significant digit
first. Fuel `n + 1` always suffices because the argument strictly shrinks
under division by 10. -/
def decimalAux : Nat → Nat → List Char
  | 0, _ => []
  | fuel + 1, n =>
    if n < 10 then [decDigitChar n]
    else decimalAux fuel (n / 10) ++ [decDigitChar (n % 10)]

/-- Model of Rust `u64::to_string()` (used on the Toggl entry id in
`entry.toggl_time_entry.id.to_string()`): the decimal digits of the number. -/
def u64ToString (n : Nat) : String := ⟨decimalAux (n + 1) n⟩

/-- Model of Rust `i64` `Display` (used by `format!("PT{}S", duration)`). -/
def i64ToString (i : Int) : String :=
  if i < 0 then "-" ++ u64ToString i.natAbs else u64ToString i.toNat

/-- Model of chrono `DateTime<FixedOffset>` at second precision: the absolute
instant in seconds since the Unix epoch together with the local offset in
seconds east of UTC. -/
structure DateTimeFO where
  utcSeconds : Int
  offsetSeconds : Int
deriving DecidableEq

/-- Model of `DateTime::to_utc()`: a `DateTime<Utc>` is just the instant. -/
def DateTimeFO.toUtc (d : DateTimeFO) : Int := d.utcSeconds

/-- Proleptic Gregorian civil date (year, month, day) from a count of days
since 1970-01-01 (floor convention), the standard "civil_from_days"
algorithm; models how chrono turns an instant into a calendar date. -/
def civilFromDays (z0 : Int) : Int × Int × Int :=
  let z := z0 + 719468
  let era := Int.fdiv z 146097
  let doe := z - era * 146097
  let yoe := Int.fdiv (doe - Int.fdiv doe 1460 + Int.fdiv doe 36524 - Int.fdiv doe 146096) 365
  let y := yoe + era * 400
  let doy := doe - (365 * yoe + Int.fdiv yoe 4 - Int.fdiv yoe 100)
  let mp := Int.fdiv (5 * doy + 2) 153
  let d := doy - Int.fdiv (153 * mp + 2) 5 + 1
  let m := if mp < 10 then mp + 3 else mp - 9
  (if m ≤ 2 then y + 1 else y, m, d)

/-- Left-pad a rendered number with zeros to width `w` (chrono's `%Y` pads
to 4 digits, `%m`/`%d` to 2). -/
def zeroPad (w : Nat) (s : String) : String :=
  ⟨List.replicate (w - s.data.length) '0' ++ s.data⟩

/-- Model of `entry.toggl_time_entry.start.format("%Y-%m-%d").to_string()`:
the calendar date of the instant in the timestamp's own fixed offset,
rendered as `YYYY-MM-DD`. Valid for dates of the common era. -/
def formatYmd (dt : DateTimeFO) : String :=
  let localSecs := dt.utcSeconds + dt.offsetSeconds
  let cd := civilFromDays (Int.fdiv localSecs 86400)
  zeroPad 4 (u64ToString cd.1.toNat) ++ "-" ++
    zeroPad 2 (u64ToString cd.2.1.toNat) ++ "-" ++
    zeroPad 2 (u64ToString cd.2.2.toNat)

/-- Model of `toggl::TimeEntry`: id is a `u64`, duration an `i64` in seconds,
`description` and `stop` optional exactly as in the Rust struct. -/
structure TogglTimeEntry where
  id : Nat
  description : Option String
  duration : Int
  start : DateTimeFO
  stop : Option DateTimeFO
deriving DecidableEq

/-- Model of `ExtendedTimeEntry` from main.rs: a Toggl entry plus the
extracted work-package id and the residual description. -/
structure ExtendedTimeEntry where
  toggl_time_entry : TogglTimeEntry
  work_package_id : String
  description : String
deriving DecidableEq

/-- Capture-group 2 of `(?: +(.*))*` applied after the closing bracket of the
tag: when the remaining text begins with a space, the group holds everything
after the maximal run of spaces up to (not including) the first newline
(`.` does not match a newline); otherwise the group does not participate and
main.rs substitutes the empty string via `map_or(String::new(), ...)`. -/
def residualOf (tail : List Char) : List Char :=
  if tail.head? = some ' ' then
    (tail.dropWhile (fun c => c == ' ')).takeWhile (fun c => !(c == '\n'))
  else []

/-- Inclusive codepoint ranges of the Unicode general category Nd (decimal
number), Unicode 15.0 — the table bundled by current releases of the regex
crate, whose `\d` with the crate's default Unicode support means `\p{Nd}`.
(Earlier Unicode versions differ only by the absence of the two most
recently encoded scripts, Kawi 11F50-11F59 and Nag Mundari 1E4F0-1E4F9.) -/
def ndRanges : List (Nat × Nat) := [
  (0x30, 0x39), (0x660, 0x669), (0x6F0, 0x6F9), (0x7C0, 0x7C9),
  (0x966, 0x96F), (0x9E6, 0x9EF), (0xA66, 0xA6F), (0xAE6, 0xAEF),
  (0xB66, 0xB6F), (0xBE6, 0xBEF), (0xC66, 0xC6F), (0xCE6, 0xCEF),
  (0xD66, 0xD6F), (0xDE6, 0xDEF), (0xE50, 0xE59), (0xED0, 0xED9),
  (0xF20, 0xF29), (0x1040, 0x1049), (0x1090, 0x1099), (0x17E0, 0x17E9),
  (0x1810, 0x1819), (0x1946, 0x194F), (0x19D0, 0x19D9), (0x1A80, 0x1A89),
  (0x1A90, 0x1A99), (0x1B50, 0x1B59), (0x1BB0, 0x1BB9), (0x1C40, 0x1C49),
  (0x1C50, 0x1C59), (0xA620, 0xA629), (0xA8D0, 0xA8D9), (0xA900, 0xA909),
  (0xA9D0, 0xA9D9), (0xA9F0, 0xA9F9), (0xAA50, 0xAA59), (0xABF0, 0xABF9),
  (0xFF10, 0xFF19), (0x104A0, 0x104A9), (0x10D30, 0x10D39), (0x11066, 0x1106F),
  (0x110F0, 0x110F9), (0x11136, 0x1113F), (0x111D0, 0x111D9), (0x112F0, 0x112F9),
  (0x11450, 0x11459), (0x114D0, 0x114D9), (0x11650, 0x11659), (0x116C0, 0x116C9),
  (0x11730, 0x11739), (0x118E0, 0x118E9), (0x11950, 0x11959), (0x11C50, 0x11C59),
  (0x11D50, 0x11D59), (0x11DA0, 0x11DA9), (0x11F50, 0x11F59), (0x16A60, 0x16A69),
  (0x16AC0, 0x16AC9), (0x16B50, 0x16B59), (0x1D7CE, 0x1D7FF), (0x1E140, 0x1E149),
  (0x1E2F0, 0x1E2F9), (0x1E4F0, 0x1E4F9), (0x1E950, 0x1E959), (0x1FBF0, 0x1FBF9)]

/-- Membership in `\p{Nd}`: the meaning of the character class `\d` in the
Rust regex crate (Unicode decimal digits, not just ASCII 0-9). -/
def isNd (c : Char) : Bool :=
  ndRanges.any (fun r => decide (r.1 ≤ c.toNat ∧ c.toNat ≤ r.2))

/-- Embedding of `REGEX_STRING = r"(?i)^\[OP#(\d+)\](?: +(.*))*"` as used by
`re.captures(&description)` in main.rs: the string must begin with `[OP#`
(letters case-insensitive), then a nonempty run of Unicode decimal digits
(capture 1, the class `\d` = `\p{Nd}`), then `]`; the match need not cover
the rest of the string. Returns capture 1 and the group-2 residual. -/
def parseDescChars (l : List Char) : Option (List Char × List Char) :=
  match l with
  | c0 :: c1 :: c2 :: c3 :: rest =>
    if (c0 = '[' ∧ (c1 = 'O' ∨ c1 = 'o') ∧ (c2 = 'P' ∨ c2 = 'p') ∧ c3 = '#') ∧
        rest.takeWhile isNd ≠ [] ∧
        (rest.dropWhile isNd).head? = some ']' then
      some (rest.takeWhile isNd, residualOf (rest.dropWhile isNd).tail)
    else none
  | _ => none

/-- String-level wrapper of the regex extraction: work-package id (capture 1,
verbatim) and residual description (capture 2 or empty). -/
def parseDescription (s : String) : Option (String × String) :=
  (parseDescChars s.data).map (fun pr => (⟨pr.1⟩, ⟨pr.2⟩))

/-- Stage `filter(|x| x.stop.is_some() && x.duration >= 60)` of main.rs. -/
def preFilter (tes : List TogglTimeEntry) : List TogglTimeEntry :=
  tes.filter (fun x => x.stop.isSome && decide (60 ≤ x.duration))

/-- Stage `filter_map` of main.rs: run the regex on
`entry.description.clone().unwrap_or_default()` and keep only matches. -/
def parseStage (tes : List TogglTimeEntry) : List ExtendedTimeEntry :=
  tes.filterMap (fun entry =>
    (parseDescription (entry.description.getD "")).map
      (fun pr =>
        { toggl_time_entry := entry
          work_package_id := pr.1
          description := pr.2 }))

/-- First-occurrence deduplication of a key list; models the key set of the
`HashMap` built in main.rs (iteration order of the hash containers is
unspecified, modelled here as first-occurrence order). -/
def dedupFirst (seen : List String) : List String → List String
  | [] => []
  | k :: rest =>
    if seen.contains k then dedupFirst seen rest
    else k :: dedupFirst (k :: seen) rest

/-- Model of `wp_time_entries_map`: entries grouped by `work_package_id`,
each group in input order, keys in first-occurrence order. -/
def groupByWp (es : List ExtendedTimeEntry) : List (String × List ExtendedTimeEntry) :=
  (dedupFirst [] (es.map (fun e => e.work_package_id))).map
    (fun k => (k, es.filter (fun e => e.work_package_id == k)))

/-- Everything main.rs computes before talking to OpenProject: filter, parse,
group. -/
def pipelineGroups (tes : List TogglTimeEntry) : List (String × List ExtendedTimeEntry) :=
  groupByWp (parseStage (preFilter tes))

/-- Bool test whether `sep` is an initial segment of `s` (the anchored match
test inside `str::split_once`). -/
def startsWithSep : List Char → List Char → Bool
  | [], _ => true
  | _ :: _, [] => false
  | c :: cs, d :: ds => c == d && startsWithSep cs ds

/-- Model of Rust `str::split_once(sep)`: split at the first occurrence of
`sep`, or `none` when `sep` does not occur. -/
def splitOnceChars (sep : List Char) : List Char → Option (List Char × List Char)
  | [] => if sep = [] then some ([], []) else none
  | c :: rest =>
    if startsWithSep sep (c :: rest) then some ([], (c :: rest).drop sep.length)
    else (splitOnceChars sep rest).map (fun pr => (c :: pr.1, pr.2))

/-- String-level `split_once`. -/
def splitOnce (sep s : String) : Option (String × String) :=
  (splitOnceChars sep.data s.data).map (fun pr => (⟨pr.1⟩, ⟨pr.2⟩))

/-- Provenance recovery used by `openproject::get_existing_toggl_ids`:
`comment_field.as_str().unwrap().split_once(COMMENT_SEPARATOR).unwrap().0`;
`none` models the `.unwrap()` panic when the separator is absent. -/
def recoverTogglId (raw : String) : Option String :=
  (splitOnce commentSeparator raw).map (fun pr => pr.1)

/-- A JSON value as far as `comment_field.as_str()` can observe it: either a
string or some non-string value. -/
inductive JsonVal where
  | str (s : String)
  | nonStr
deriving DecidableEq

/-- One element of the `_embedded.elements` array of the OpenProject time-entry
response, reduced to the only field `get_existing_toggl_ids` reads:
`element.get("comment").and_then(|c| c.get("raw"))`. -/
structure OpElement where
  commentRaw : Option JsonVal
deriving DecidableEq

/-- Result of the extraction loop of `get_existing_toggl_ids`: either the
collected ids (returned through the `anyhow::Result` channel as `Ok`) or a
panic raised by one of the two `.unwrap()` calls, which is not a value of
the declared `Result` error channel at all. -/
inductive ExtractResult where
  | ok (ids : List String)
  | panics
deriving DecidableEq

/-- The element loop of `get_existing_toggl_ids` (openproject.rs lines
191-204): elements without a `comment.raw` field are skipped; a non-string
`comment.raw` panics in `as_str().unwrap()`; a string without the separator
panics in `split_once(...).unwrap()`; otherwise the text before the first
separator is pushed. -/
def extractIds : List OpElement → ExtractResult
  | [] => .ok []
  | el :: rest =>
    match el.commentRaw with
    | none => extractIds rest
    | some .nonStr => .panics
    | some (.str s) =>
      match splitOnce commentSeparator s with
      | none => .panics
      | some pr =>
        match extractIds rest with
        | .panics => .panics
        | .ok ids => .ok (pr.1 :: ids)

/-- The lookup loop of main.rs lines 131-134: call
`get_existing_toggl_ids(wp_id)` for every unique work-package id in turn,
appending the results; the `?` operator aborts on the first error. -/
def collectExisting (lookup : String → Except String (List String)) :
    List String → Except String (List String)
  | [] => .ok []
  | wp :: rest =>
    match lookup wp with
    | .error e => .error e
    | .ok ids =>
      match collectExisting lookup rest with
      | .error e => .error e
      | .ok more => .ok (ids ++ more)

/-- Model of `TimeEntryRequest` (the submission payload): links flattened to
their `href` strings, timestamps as UTC instants. -/
structure Payload where
  workPackageHref : String
  activityHref : String
  hours : String
  startTime : Int
  stopTime : Int
  commentRaw : String
  spentOn : String
deriving DecidableEq

/-- The comment built in main.rs line 156:
`toggl_id + COMMENT_SEPARATOR + &entry.description`. -/
def commentRawOf (e : ExtendedTimeEntry) : String :=
  u64ToString e.toggl_time_entry.id ++ commentSeparator ++ e.description

/-- Payload construction from main.rs lines 156-178: duration as `PT{}S`,
date as `%Y-%m-%d`, and both `start_time` and `stop_time` set to
`entry.toggl_time_entry.start.to_utc()`. -/
def buildPayload (activityId : String) (e : ExtendedTimeEntry) : Payload where
  workPackageHref := "/api/v3/work_packages/" ++ e.work_package_id
  activityHref := "/api/v3/time_entries/activities/" ++ activityId
  hours := "PT" ++ i64ToString e.toggl_time_entry.duration ++ "S"
  startTime := e.toggl_time_entry.start.toUtc
  stopTime := e.toggl_time_entry.start.toUtc
  commentRaw := commentRawOf e
  spentOn := formatYmd e.toggl_time_entry.start

/-- The duplicate filter of main.rs lines 144-154: walk the grouped map and
keep every entry whose stringified Toggl id is not contained in the single
flat `existing_toggl_ids` vector pooled over all work packages. -/
def entriesToSubmit (grouped : List (String × List ExtendedTimeEntry))
    (existing : List String) : List ExtendedTimeEntry :=
  match grouped with
  | [] => []
  | g :: rest =>
    g.2.filter (fun e => !(existing.contains (u64ToString e.toggl_time_entry.id))) ++
      entriesToSubmit rest existing

/-- Terminal outcome of one run of `main`. -/
inductive Outcome where
  | success
  | declined
  | error (msg : String)
deriving DecidableEq

/-- Process exit status of each outcome: `Ok(())` exits 0; the decline branch
calls `exit(1)`; an `Err` returned from `main` makes the Rust runtime exit
with `ExitCode::FAILURE`, which is also 1. -/
def exitCode : Outcome → Nat
  | .success => 0
  | .declined => 1
  | .error _ => 1

/-- The submission loop of main.rs lines 202-204: POST each payload in order;
`?` aborts on the first failure. Returns the successfully submitted payloads
and whether the whole loop succeeded. -/
def submitAll (submit : Payload → Bool) : List Payload → List Payload × Bool
  | [] => ([], true)
  | p :: ps =>
    if submit p then
      ((submitAll submit ps).1.cons p, (submitAll submit ps).2)
    else ([], false)

/-- Observable result of one run: the terminal outcome and the payloads that
were actually submitted to the sink. -/
structure RunResult where
  outcome : Outcome
  submitted : List Payload
deriving DecidableEq

/-- The whole of `main` (main.rs lines 68-208) with its effects passed in:
`fetched` is the result of `toggl::get_time_entries(2)`, `lookup` the
per-work-package `get_existing_toggl_ids`, `confirm` the interactive prompt
given the number of pending entries, `submit` the per-payload POST. -/
def runSync (activityId : String) (fetched : Except String (List TogglTimeEntry))
    (lookup : String → Except String (List String)) (confirm : Nat → Bool)
    (submit : Payload → Bool) : RunResult :=
  match fetched with
  | .error e => ⟨.error e, []⟩
  | .ok tes =>
    let grouped := pipelineGroups tes
    match collectExisting lookup (grouped.map Prod.fst) with
    | .error e => ⟨.error e, []⟩
    | .ok existing =>
      let toSubmit := entriesToSubmit grouped existing
      if toSubmit.isEmpty then ⟨.success, []⟩
      else
        let payloads := toSubmit.map (buildPayload activityId)
        if confirm payloads.length then
          let result := submitAll submit payloads
          ⟨if result.2 then .success else .error "submission failed", result.1⟩
        else ⟨.declined, []⟩

/-- Concrete instant 2024-01-01T10:00:00Z (offset 0). -/
def dt2024Jan1T10 : DateTimeFO := ⟨1704103200, 0⟩

/-- Concrete Toggl entry with id 999 tagged for work package 5. -/
def cexEntryA : TogglTimeEntry :=
  ⟨999, some "[OP#5] work", 3600, dt2024Jan1T10, some dt2024Jan1T10⟩

/-- Concrete Toggl entry with id 1000 tagged for work package 7. -/
def cexEntryB : TogglTimeEntry :=
  ⟨1000, some "[OP#7] other", 3600, dt2024Jan1T10, some dt2024Jan1T10⟩

/-- Lookup whose existing set for work package 7 is `{"999"}` and empty for
every other work package, in particular for work package 5. -/
def lookupCex : String → Except String (List String) :=
  fun wp => if wp = "7" then .ok ["999"] else .ok []

/-- Lookup that fails for every work package. -/
def lookupBoom : String → Except String (List String) := fun _ => .error "boom"

/-- Lookup that succeeds with an empty existing set everywhere. -/
def lookupOkEmpty : String → Except String (List String) := fun _ => .ok []

/-- Confirmation prompt answered yes. -/
def confirmYes : Nat → Bool := fun _ => true

/-- Confirmation prompt answered no. -/
def confirmNo : Nat → Bool := fun _ => false

/-- Submission transport that always succeeds. -/
def submitOk : Payload → Bool := fun _ => true

/-- The parsed entry of the spec round-trip example: id 999, start
2024-01-01T10:00:00Z, 1800 seconds, residual "Did work". -/
def demoEntry999 : ExtendedTimeEntry :=
  ⟨⟨999, some "[OP#5] Did work", 1800, dt2024Jan1T10, some dt2024Jan1T10⟩, "5", "Did work"⟩

/-- A sub-minute Toggl entry (30 seconds) tagged for work package 5. -/
def shortToggl : TogglTimeEntry :=
  ⟨77, some "[OP#5] x", 30, dt2024Jan1T10, some dt2024Jan1T10⟩

/-- The parsed form of `shortToggl`. -/
def shortExt : ExtendedTimeEntry := ⟨shortToggl, "5", "x"⟩

/-- Concrete payload A for the submission-order theorems. -/
def payA : Payload := ⟨"wA", "act", "PT60S", 0, 0, "1 - a", "1970-01-01"⟩

/-- Concrete payload B for the submission-order theorems. -/
def payB : Payload := ⟨"wB", "act", "PT120S", 0, 0, "2 - b", "1970-01-01"⟩

/-- Concrete payload C for the submission-order theorems. -/
def payC : Payload := ⟨"wC", "act", "PT180S", 0, 0, "3 - c", "1970-01-01"⟩

/-- Submission transport that fails exactly on `payB`. -/
def submitNotB : Payload → Bool := fun q => decide (q ≠ payB)

/-- Every character emitted by the decimal renderer is an ASCII digit. -/
theorem decimalAux_digits (fuel n : Nat) : ∀ c ∈ decimalAux fuel n, c.isDigit = true := by
  induction fuel generalizing n with
  | zero => intro c hc; simp [decimalAux] at hc
  | succ f ih =>
    intro c hc
    have hdig : ∀ m : Nat, m < 10 → (decDigitChar m).isDigit = true := by
      intro m hm
      interval_cases m <;> decide
    simp only [decimalAux] at hc
    split at hc
    · simp only [List.mem_singleton] at hc
      subst hc
      exact hdig n (by omega)
    · rcases List.mem_append.1 hc with h | h
      · exact ih (n / 10) c h
      · simp only [List.mem_singleton] at h
        subst h
        exact hdig (n % 10) (Nat.mod_lt _ (by omega))

/-- The rendered Toggl id consists of ASCII digits only. -/
theorem u64ToString_digits (n : Nat) : ∀ c ∈ (u64ToString n).data, c.isDigit = true :=
  decimalAux_digits (n + 1) n

/-- Membership test of `Vec::contains` / `List.contains` agrees with `∈`. -/
theorem contains_iff_mem (l : List String) (s : String) : l.contains s = true ↔ s ∈ l := by
  simp [List.contains_iff_exists_mem_beq, beq_iff_eq]

/-- String eta: rebuilding a string from its characters is the identity. -/
theorem strEta (s : String) : (⟨s.data⟩ : String) = s := by
  cases s
  rfl

/-- The character list of `commentSeparator`. -/
theorem commentSeparator_data : commentSeparator.data = [' ', '-', ' '] := rfl

/-- Any list starts with itself followed by anything. -/
theorem startsWithSep_self_append (sep res : List Char) :
    startsWithSep sep (sep ++ res) = true := by
  induction sep with
  | nil => rfl
  | cons c cs ih => simp [startsWithSep, ih]

/-- Splitting `digits ++ " - " ++ residual` once at `" - "` recovers exactly
the digits and the residual: a digit is never a space, so no earlier
occurrence of the separator can exist inside the id part. -/
theorem splitOnceChars_roundtrip (idc res : List Char)
    (h : ∀ c ∈ idc, c.isDigit = true) :
    splitOnceChars commentSeparator.data (idc ++ (commentSeparator.data ++ res)) =
      some (idc, res) := by
  induction idc with
  | nil =>
    rw [commentSeparator_data, List.nil_append]
    show splitOnceChars [' ', '-', ' '] (' ' :: '-' :: ' ' :: res) = _
    simp [splitOnceChars, startsWithSep]
  | cons c cs ih =>
    have hc : c.isDigit = true := h c (by simp)
    have hcne : (' ' == c) = false := by
      cases hq : (' ' == c) with
      | false => rfl
      | true =>
        have : ' ' = c := by exact eq_of_beq hq
        rw [← this] at hc
        simp [Char.isDigit] at hc
    rw [commentSeparator_data] at ih ⊢
    rw [List.cons_append, splitOnceChars]
    have hsw : startsWithSep [' ', '-', ' '] (c :: (cs ++ ([' ', '-', ' '] ++ res))) = false := by
      simp [startsWithSep, hcne]
    rw [hsw]
    simp only [Bool.false_eq_true, if_false]
    rw [ih (fun x hx => h x (by simp [hx]))]
    rfl

/-- Provenance recovery round-trips on every comment the program builds: the
id recovered by `split_once` from `commentRawOf e` is exactly the
stringified Toggl id of `e`. -/
theorem recover_commentRawOf (e : ExtendedTimeEntry) :
    recoverTogglId (commentRawOf e) = some (u64ToString e.toggl_time_entry.id) := by
  unfold recoverTogglId commentRawOf splitOnce
  have hdata : (u64ToString e.toggl_time_entry.id ++ commentSeparator ++ e.description).data
      = (u64ToString e.toggl_time_entry.id).data ++
        (commentSeparator.data ++ e.description.data) := by
    rw [String.data_append, String.data_append, List.append_assoc]
  rw [hdata, splitOnceChars_roundtrip _ _ (u64ToString_digits e.toggl_time_entry.id)]
  simp [strEta]

/-- Membership in the to-submit list: an entry is kept exactly when it lies in
some group of the map and its stringified id is not contained in the pooled
existing vector. -/
theorem mem_entriesToSubmit {e : ExtendedTimeEntry}
    {grouped : List (String × List ExtendedTimeEntry)} {existing : List String} :
    e ∈ entriesToSubmit grouped existing ↔
      (∃ g ∈ grouped, e ∈ g.2) ∧
        existing.contains (u64ToString e.toggl_time_entry.id) = false := by
  induction grouped with
  | nil => simp [entriesToSubmit]
  | cons g rest ih =>
    simp only [entriesToSubmit, List.mem_append, List.mem_filter, ih, List.mem_cons,
      Bool.not_eq_true']
    constructor
    · rintro (⟨he, hc⟩ | ⟨⟨g', hg', he⟩, hc⟩)
      · exact ⟨⟨g, Or.inl rfl, he⟩, hc⟩
      · exact ⟨⟨g', Or.inr hg', he⟩, hc⟩
    · rintro ⟨⟨g', hg' | hg', he⟩, hc⟩
      · subst hg'
        exact Or.inl ⟨he, hc⟩
      · exact Or.inr ⟨⟨g', hg', he⟩, hc⟩

/-- If every entry of every group has its stringified id in `existing`, the
to-submit list is empty. -/
theorem entriesToSubmit_eq_nil {grouped : List (String × List ExtendedTimeEntry)}
    {ex2 : List String}
    (h : ∀ e : ExtendedTimeEntry, (∃ g ∈ grouped, e ∈ g.2) →
      ex2.contains (u64ToString e.toggl_time_entry.id) = true) :
    entriesToSubmit grouped ex2 = [] := by
  induction grouped with
  | nil => rfl
  | cons g rest ih =>
    simp only [entriesToSubmit, List.append_eq_nil]
    constructor
    · rw [List.filter_eq_nil_iff]
      intro e he
      rw [h e ⟨g, by simp, he⟩]
      simp
    · exact ih (fun e ⟨g', hg', he⟩ => h e ⟨g', by simp [hg'], he⟩)

/-- Claim C3: reconciliation is idempotent. If the second run's pooled
existing set contains everything of the first run's set plus, for every
entry submitted in the first run, the identifier recovered from the stored
comment by `split_once " - "` (as `get_existing_toggl_ids` does), then the
second run over the same grouped source entries submits nothing. The id
recovery round-trips because ids are decimal digit strings. -/
theorem reconcile_idempotent (grouped : List (String × List ExtendedTimeEntry))
    (existing1 existing2 : List String)
    (hmono : ∀ s ∈ existing1, s ∈ existing2)
    (hrec : ∀ e ∈ entriesToSubmit grouped existing1,
      ∀ i, recoverTogglId (commentRawOf e) = some i → i ∈ existing2) :
    entriesToSubmit grouped existing2 = [] := by
  apply entriesToSubmit_eq_nil
  intro e hg
  rw [contains_iff_mem]
  cases hc : existing1.contains (u64ToString e.toggl_time_entry.id) with
  | true => exact hmono _ ((contains_iff_mem _ _).1 hc)
  | false =>
    exact hrec e (mem_entriesToSubmit.2 ⟨hg, hc⟩) _ (recover_commentRawOf e)

/-- Witness for C3 at the round-trip example entry: with first-run existing
set empty, entry 999 is submitted; adding the recovered id "999" makes the
second run empty. -/
theorem reconcile_idempotent_witness :
    entriesToSubmit [("5", [demoEntry999])] ["999"] = [] := by
  apply reconcile_idempotent [("5", [demoEntry999])] [] ["999"]
  · intro s hs
    simp at hs
  · intro e he i hi
    have h1 : entriesToSubmit [("5", [demoEntry999])] [] = [demoEntry999] := by decide
    rw [h1] at he
    simp only [List.mem_singleton] at he
    subst he
    have h2 : recoverTogglId (commentRawOf demoEntry999) = some "999" := by decide
    rw [h2] at hi
    injection hi with hi
    subst hi
    simp

/-- Claim C1 counterexample: two entries, id 999 in work-package group "5"
and id 1000 in group "7". The lookup for "5" (entry 999's own group) returns
the empty set, while the lookup for "7" returns {"999"}; the pooled vector
is ["999"]. The claim requires entry 999 to be retained (its id is absent
from its own group's set), but the code drops it: only the group-"7" entry
survives. -/
theorem reconcile_crossGroup_cex :
    lookupCex "5" = .ok [] ∧
    (pipelineGroups [cexEntryA, cexEntryB]).map Prod.fst = ["5", "7"] ∧
    collectExisting lookupCex ((pipelineGroups [cexEntryA, cexEntryB]).map Prod.fst) =
      .ok ["999"] ∧
    cexEntryA.id = 999 ∧
    entriesToSubmit (pipelineGroups [cexEntryA, cexEntryB]) ["999"] =
      [⟨cexEntryB, "7", "other"⟩] := by
  refine ⟨rfl, by decide, rfl, rfl, by decide⟩

/-- Claim C1 amended: an entry is retained if and only if its stringified id
is absent from the pooled union of the existing identifier lists fetched for
all work-package groups — membership in a set fetched for a different work
package also excludes it. -/
theorem reconcile_union_membership (grouped : List (String × List ExtendedTimeEntry))
    (existing : List String) (e : ExtendedTimeEntry) :
    e ∈ entriesToSubmit grouped existing ↔
      (∃ g ∈ grouped, e ∈ g.2) ∧ u64ToString e.toggl_time_entry.id ∉ existing := by
  rw [mem_entriesToSubmit]
  constructor
  · rintro ⟨hg, hc⟩
    refine ⟨hg, fun hmem => ?_⟩
    rw [(contains_iff_mem _ _).2 hmem] at hc
    cases hc
  · rintro ⟨hg, hnm⟩
    refine ⟨hg, ?_⟩
    cases hc : existing.contains (u64ToString e.toggl_time_entry.id) with
    | false => rfl
    | true => exact absurd ((contains_iff_mem _ _).1 hc) hnm

/-- Elements of a group of `groupByWp` come from the grouped list. -/
theorem mem_of_mem_groupByWp {k : String} {es : List ExtendedTimeEntry}
    {l : List ExtendedTimeEntry} (h : (k, es) ∈ groupByWp l) :
    ∀ e ∈ es, e ∈ l := by
  unfold groupByWp at h
  rw [List.mem_map] at h
  obtain ⟨k', _, heq⟩ := h
  rw [Prod.mk.injEq] at heq
  obtain ⟨-, hes⟩ := heq
  intro e he
  rw [← hes] at he
  exact (List.mem_filter.1 he).1

/-- Elements of the parse stage wrap an entry of the stage's input. -/
theorem parseStage_src {e : ExtendedTimeEntry} {l : List TogglTimeEntry}
    (h : e ∈ parseStage l) : e.toggl_time_entry ∈ l := by
  unfold parseStage at h
  rw [List.mem_filterMap] at h
  obtain ⟨t, ht, hsome⟩ := h
  rcases Option.map_eq_some'.1 hsome with ⟨pr, -, heq⟩
  rw [← heq]
  exact ht

/-- Entries that survive the pre-filter have a stop time and at least 60
seconds of duration. -/
theorem preFilter_props {t : TogglTimeEntry} {l : List TogglTimeEntry}
    (h : t ∈ preFilter l) : t.stop.isSome = true ∧ 60 ≤ t.duration := by
  unfold preFilter at h
  rw [List.mem_filter] at h
  obtain ⟨-, hp⟩ := h
  rw [Bool.and_eq_true, decide_eq_true_eq] at hp
  exact hp

/-- Claim C5: a source entry with no stop time or a duration below 60 seconds
is discarded by the gate of main.rs line 83-85 before parsing, grouping and
reconciliation, so no entry wrapping it can ever be in the to-submit list
that feeds the payload builder. -/
theorem prefilter_gate_excludes (tes : List TogglTimeEntry) (ex : List String)
    (e : ExtendedTimeEntry)
    (h : e.toggl_time_entry.stop = none ∨ e.toggl_time_entry.duration < 60) :
    e ∉ entriesToSubmit (pipelineGroups tes) ex := by
  intro hmem
  obtain ⟨⟨g, hgmem, hein⟩, -⟩ := mem_entriesToSubmit.1 hmem
  have hparse : e ∈ parseStage (preFilter tes) := by
    obtain ⟨k, es⟩ := g
    exact mem_of_mem_groupByWp hgmem e hein
  have hpre := preFilter_props (parseStage_src hparse)
  rcases h with h | h
  · rw [h] at hpre
    simp at hpre
  · omega

/-- Witness for C5: the 30-second entry never reaches the payload builder. -/
theorem prefilter_gate_excludes_witness :
    shortExt ∉ entriesToSubmit (pipelineGroups [shortToggl]) [] :=
  prefilter_gate_excludes [shortToggl] [] shortExt (Or.inr (by decide))

/-- Claim C4: every payload built by the payload builder has both its
startTime and its stopTime fields equal to the source entry's start instant
converted to UTC (main.rs lines 174-175); in particular stopTime is not
start plus duration. -/
theorem payload_start_stop_eq_start (aid : String) (e : ExtendedTimeEntry) :
    (buildPayload aid e).startTime = e.toggl_time_entry.start.toUtc ∧
    (buildPayload aid e).stopTime = e.toggl_time_entry.start.toUtc :=
  ⟨rfl, rfl⟩

/-- Claim C6: a built payload has hours `PT{duration}S`, spentOn the start
date formatted `YYYY-MM-DD`, and comment.raw `{id} - {residual}`; evaluated
at the spec's round-trip example (id 999, start 2024-01-01T10:00:00Z,
1800 s, residual "Did work") this gives "PT1800S", "2024-01-01" and
"999 - Did work". -/
theorem payload_shape (aid : String) (e : ExtendedTimeEntry) :
    (buildPayload aid e).hours = "PT" ++ i64ToString e.toggl_time_entry.duration ++ "S" ∧
    (buildPayload aid e).spentOn = formatYmd e.toggl_time_entry.start ∧
    (buildPayload aid e).commentRaw =
      u64ToString e.toggl_time_entry.id ++ commentSeparator ++ e.description ∧
    (buildPayload "1" demoEntry999).hours = "PT1800S" ∧
    (buildPayload "1" demoEntry999).spentOn = "2024-01-01" ∧
    (buildPayload "1" demoEntry999).commentRaw = "999 - Did work" := by
  refine ⟨rfl, rfl, rfl, by decide, by decide, by decide⟩

/-- Claim C10: the comment extraction of `get_existing_toggl_ids` is not
total. A time entry whose `comment.raw` is a string without the separator
`" - "` (for instance one created by hand in OpenProject) hits
`split_once(..).unwrap()` and panics; a non-string `comment.raw` hits
`as_str().unwrap()` and panics. Neither failure is reported through the
declared `anyhow::Result` channel. A well-formed comment is extracted
normally and an element without the field is skipped. -/
theorem extract_ids_panics_cases :
    extractIds [⟨some (.str "manual entry")⟩] = .panics ∧
    extractIds [⟨some .nonStr⟩] = .panics ∧
    extractIds [⟨some (.str "123 - work")⟩, ⟨none⟩] = .ok ["123"] :=
  ⟨rfl, rfl, rfl⟩

/-- A failing lookup for any member of the id list makes the pooled
collection fail. -/
theorem collectExisting_error {lookup : String → Except String (List String)}
    {ids : List String} {wp msg : String}
    (hmem : wp ∈ ids) (herr : lookup wp = .error msg) :
    ∃ m, collectExisting lookup ids = .error m := by
  induction ids with
  | nil => cases hmem
  | cons a rest ih =>
    simp only [collectExisting]
    cases hla : lookup a with
    | error e => exact ⟨e, rfl⟩
    | ok ids' =>
      rcases List.mem_cons.1 hmem with rfl | hmem'
      · rw [herr] at hla
        cases hla
      · obtain ⟨m, hm⟩ := ih hmem'
        rw [hm]
        exact ⟨m, rfl⟩

/-- Claim C7: when the existing-reference lookup fails for any single
work-package id of the run, the run ends with an error before the submit
stage, and nothing whatsoever is submitted — regardless of how many other
lookups succeeded. -/
theorem lookup_failure_aborts (aid : String) (tes : List TogglTimeEntry)
    (lookup : String → Except String (List String)) (confirm : Nat → Bool)
    (submit : Payload → Bool) (wp msg : String)
    (hwp : wp ∈ (pipelineGroups tes).map Prod.fst)
    (herr : lookup wp = .error msg) :
    (runSync aid (.ok tes) lookup confirm submit).submitted = [] ∧
    ∃ m, (runSync aid (.ok tes) lookup confirm submit).outcome = .error m := by
  obtain ⟨m, hm⟩ := collectExisting_error hwp herr
  refine ⟨?_, m, ?_⟩ <;> simp [runSync, hm]

/-- Witness for C7: with a single tagged entry for work package 5 and a
lookup that always fails, the run errors and submits nothing. -/
theorem lookup_failure_aborts_witness :
    (runSync "1" (.ok [cexEntryA]) lookupBoom confirmYes submitOk).submitted = [] ∧
    ∃ m, (runSync "1" (.ok [cexEntryA]) lookupBoom confirmYes submitOk).outcome = .error m :=
  lookup_failure_aborts "1" [cexEntryA] lookupBoom confirmYes submitOk "5" "boom"
    (by decide) rfl

/-- Claim C8 counterexample: declining the confirmation terminates via
`exit(1)`, but an unrecoverable error (here: the fetch from Toggl failing)
returned as `Err` from `main` also makes the process exit with status 1, so
the decline status is not distinguishable from the error status. -/
theorem decline_exit_code_cex :
    (runSync "1" (.ok [cexEntryA]) lookupOkEmpty confirmNo submitOk).outcome = .declined ∧
    (runSync "1" (.error "io error") lookupOkEmpty confirmNo submitOk).outcome =
      .error "io error" ∧
    exitCode (runSync "1" (.ok [cexEntryA]) lookupOkEmpty confirmNo submitOk).outcome = 1 ∧
    exitCode (runSync "1" (.error "io error") lookupOkEmpty confirmNo submitOk).outcome = 1 := by
  refine ⟨by decide, rfl, by decide, rfl⟩

/-- Claim C8 amended: when the pipeline reaches the confirmation prompt and
the user declines, the run terminates with outcome `declined` — exit status
1, which is non-zero and distinct from the success status 0, but identical
to the generic error exit status — and nothing is submitted to the sink. -/
theorem decline_aborts_without_submit (aid : String) (tes : List TogglTimeEntry)
    (lookup : String → Except String (List String)) (confirm : Nat → Bool)
    (submit : Payload → Bool) (ex : List String)
    (hlk : collectExisting lookup ((pipelineGroups tes).map Prod.fst) = .ok ex)
    (hne : entriesToSubmit (pipelineGroups tes) ex ≠ [])
    (hconf : confirm ((entriesToSubmit (pipelineGroups tes) ex).map (buildPayload aid)).length
      = false) :
    runSync aid (.ok tes) lookup confirm submit = ⟨.declined, []⟩ ∧
    exitCode .declined = 1 ∧ exitCode .success = 0 ∧ ∀ m, exitCode (.error m) = 1 := by
  refine ⟨?_, rfl, rfl, fun m => rfl⟩
  have hempty : (entriesToSubmit (pipelineGroups tes) ex).isEmpty = false := by
    cases h : entriesToSubmit (pipelineGroups tes) ex with
    | nil => exact absurd h hne
    | cons a l => rfl
  simp only [runSync, hlk, hempty, hconf]
  rfl

/-- Witness for C8 (amended): a run with one pending entry and a declining
user ends declined with an empty submission list. -/
theorem decline_aborts_witness :
    runSync "1" (.ok [cexEntryA]) lookupOkEmpty confirmNo submitOk = ⟨.declined, []⟩ ∧
    exitCode .declined = 1 ∧ exitCode .success = 0 ∧ ∀ m, exitCode (.error m) = 1 :=
  decline_aborts_without_submit "1" [cexEntryA] lookupOkEmpty confirmNo submitOk []
    rfl (by decide) rfl

/-- Claim C9: payloads are submitted strictly in sequence and the first
failing submission aborts the rest of the queue: with every payload before
`p` succeeding and `p` failing, exactly the payloads before `p` end up
submitted (they are neither retried nor rolled back), none after `p` is
attempted, and the loop reports failure. -/
theorem submit_stops_at_first_failure (submit : Payload → Bool)
    (ps₁ ps₂ : List Payload) (p : Payload)
    (h1 : ∀ q ∈ ps₁, submit q = true) (h2 : submit p = false) :
    submitAll submit (ps₁ ++ p :: ps₂) = (ps₁, false) := by
  induction ps₁ with
  | nil => simp [submitAll, h2]
  | cons q qs ih =>
    have hq : submit q = true := h1 q (by simp)
    have ihh := ih (fun x hx => h1 x (by simp [hx]))
    simp [submitAll, hq, ihh]

/-- Witness for C9: with a transport failing exactly on the middle payload,
only the first payload is submitted and the run reports failure. -/
theorem submit_stops_witness :
    submitAll submitNotB ([payA] ++ payB :: [payC]) = ([payA], false) :=
  submit_stops_at_first_failure submitNotB [payA] [payC] payB (by decide) (by decide)

/-- A run of Unicode decimal digit characters followed by `]` splits cleanly
under takeWhile/dropWhile on `isNd` (`]` is not in category Nd). -/
theorem takeWhile_digits_append (ds tail : List Char)
    (h : ∀ c ∈ ds, isNd c = true) :
    (ds ++ ']' :: tail).takeWhile isNd = ds ∧
    (ds ++ ']' :: tail).dropWhile isNd = ']' :: tail := by
  induction ds with
  | nil =>
    have hbr : isNd ']' = false := by decide
    constructor
    · simp [List.takeWhile_cons, hbr]
    · simp [List.dropWhile_cons, hbr]
  | cons c cs ih =>
    have hc : isNd c = true := h c (by simp)
    obtain ⟨ht, hd⟩ := ih (fun x hx => h x (by simp [hx]))
    constructor
    · simp [List.takeWhile_cons, hc, ht]
    · simp [List.dropWhile_cons, hc, hd]

/-- Exact characterization of the regex match at character level: the
extraction returns `some (w, r)` precisely when the input starts with
`[OP#` (letters in either case) followed by the nonempty run `w` of Unicode
decimal digits and `]`, and `r` is the group-2 residual of the text after
the bracket. -/
theorem parseDescChars_eq_some (l w r : List Char) :
    parseDescChars l = some (w, r) ↔
      ∃ o p tail, (o = 'O' ∨ o = 'o') ∧ (p = 'P' ∨ p = 'p') ∧
        l = '[' :: o :: p :: '#' :: (w ++ ']' :: tail) ∧ w ≠ [] ∧
        (∀ c ∈ w, isNd c = true) ∧ r = residualOf tail := by
  constructor
  · intro h
    match l with
    | [] => simp [parseDescChars] at h
    | [c0] => simp [parseDescChars] at h
    | [c0, c1] => simp [parseDescChars] at h
    | [c0, c1, c2] => simp [parseDescChars] at h
    | c0 :: c1 :: c2 :: c3 :: rest =>
      simp only [parseDescChars] at h
      split at h
      next hC =>
        injection h with h'
        rw [Prod.mk.injEq] at h'
        obtain ⟨hw, hr⟩ := h'
        obtain ⟨⟨hc0, hc1, hc2, hc3⟩, hne, hhead⟩ := hC
        cases hdw : rest.dropWhile isNd with
        | nil =>
          rw [hdw] at hhead
          simp at hhead
        | cons d ds =>
          rw [hdw] at hhead
          simp only [List.head?_cons, Option.some.injEq] at hhead
          subst hhead
          subst hc0
          subst hc3
          refine ⟨c1, c2, ds, hc1, hc2, ?_, ?_, ?_, ?_⟩
          · rw [← hw, ← hdw]
            simp [List.takeWhile_append_dropWhile]
          · rw [← hw]
            exact hne
          · intro c hc
            rw [← hw] at hc
            exact List.mem_takeWhile_imp hc
          · rw [← hr, hdw]
            rfl
      next =>
        exact Option.noConfusion h
  · rintro ⟨o, p, tail, ho, hp, rfl, hne, hdig, rfl⟩
    obtain ⟨htw, hdw⟩ := takeWhile_digits_append w tail hdig
    simp only [parseDescChars]
    rw [htw, hdw]
    rw [if_pos (show (True ∧ (o = 'O' ∨ o = 'o') ∧ (p = 'P' ∨ p = 'p') ∧ True) ∧
        w ≠ [] ∧ (']' :: tail).head? = some ']' from ⟨⟨trivial, ho, hp, trivial⟩, hne, rfl⟩)]
    rfl

/-- Claim C2 counterexample: a description where non-space text is glued
directly to the tag still matches the regex (the match need not cover the
whole string and the residual group simply does not participate), so the
parse returns `some ("123", "")` where the claim demands `none`; the same
happens with text separated by a tab, since the regex requires literal
spaces. -/
theorem parse_glued_text_cex :
    parseDescription "[OP#123]x" = some ("123", "") ∧
    parseDescription "[OP#1]\tZ" = some ("1", "") ∧
    parseDescription "[OP#123]x" ≠ none := by
  refine ⟨by decide, by decide, by decide⟩

/-- Claim C2 amended: parsing returns a pair exactly for descriptions that
begin (case-insensitively) with `[OP#<digits>]` with a nonempty run of
Unicode decimal digits (the class `\d` of the regex crate is `\p{Nd}`, not
just ASCII); the returned work-package id is the digit run verbatim, and the residual is
the text after the maximal run of spaces following the bracket, truncated at
the first newline, when the bracket is immediately followed by a space — and
the empty string otherwise (even when further text follows without a space);
every description not beginning with such a tag yields `none`. -/
theorem parse_characterization (s w r : String) :
    parseDescription s = some (w, r) ↔
      ∃ o p tail, (o = 'O' ∨ o = 'o') ∧ (p = 'P' ∨ p = 'p') ∧
        s.data = '[' :: o :: p :: '#' :: (w.data ++ ']' :: tail) ∧ w.data ≠ [] ∧
        (∀ c ∈ w.data, isNd c = true) ∧ r.data = residualOf tail := by
  unfold parseDescription
  constructor
  · intro h
    rcases Option.map_eq_some'.1 h with ⟨⟨wc, rc⟩, hp, heq⟩
    rw [Prod.mk.injEq] at heq
    obtain ⟨hw, hr⟩ := heq
    have hwd : w.data = wc := by rw [← hw]
    have hrd : r.data = rc := by rw [← hr]
    rw [hwd, hrd]
    exact (parseDescChars_eq_some s.data wc rc).1 hp
  · rintro ⟨o, p, tail, ho, hp, hsd, hne, hdig, hrd⟩
    have hsome : parseDescChars s.data = some (w.data, r.data) :=
      (parseDescChars_eq_some s.data w.data r.data).2
        ⟨o, p, tail, ho, hp, hsd, hne, hdig, hrd⟩
    rw [hsome]
    simp [strEta]

/-- The digit class of the model is genuinely Unicode: an Arabic-Indic digit
five (U+0665) and a fullwidth digit five (U+FF15) in the tag parse just as
the program's regex accepts them, while a non-digit letter still fails. -/
theorem parse_unicode_digit_examples :
    parseDescription "[OP#٥] x" = some ("٥", "x") ∧
    parseDescription "[OP#５]" = some ("５", "") ∧
    parseDescription "[OP#x]" = none := by
  refine ⟨by decide, by decide, by decide⟩
